import Mathlib

/-!
Verification of the meme-coin-aggregator service against its specification.

The TypeScript sources are shallowly embedded: JS numbers are modelled as
exact rationals (`ℚ`), with an explicit `JSNum` model (finite / infinity /
NaN) at the one place where division by zero occurs in the source
(`detectSignificantChanges`).  JS `Map` objects (insertion-ordered, with
`set` keeping the original position of an existing key) are modelled as
association lists.
-/

namespace MemeAgg

/-- Lower-casing of an address string, modelling `String.prototype.toLowerCase`
as applied to the ASCII addresses this service handles. -/
def jsToLower (s : String) : String :=
  ⟨s.data.map Char.toLower⟩

/-- Association-list lookup: the first binding of the key, modelling
`Map.prototype.get`. -/
def mapGet {α : Type} (m : List (String × α)) (k : String) : Option α :=
  match m with
  | [] => none
  | (k', v) :: rest => if k' = k then some v else mapGet rest k

/-- Association-list update, modelling `Map.prototype.set`: an existing key
keeps its original position (insertion order); a fresh key is appended. -/
def mapSet {α : Type} (m : List (String × α)) (k : String) (v : α) : List (String × α) :=
  match m with
  | [] => [(k, v)]
  | (k', v') :: rest => if k' = k then (k, v) :: rest else (k', v') :: mapSet rest k v

/-- Association-list removal, modelling `Map.prototype.delete`. -/
def mapDelete {α : Type} (m : List (String × α)) (k : String) : List (String × α) :=
  match m with
  | [] => []
  | (k', v') :: rest => if k' = k then rest else (k', v') :: mapDelete rest k

/-- The keys of an association list, in order. -/
def mapKeys {α : Type} (m : List (String × α)) : List String :=
  m.map Prod.fst

/-- src/types/token.types.ts: `Token` — one source's view of one token.
`price_1hr_change` is a required `number` in the interface;
`price_24hr_change` and `price_7d_change` are optional. -/
structure Token where
  token_address : String
  token_name : String
  token_ticker : String
  price_sol : ℚ
  market_cap_sol : ℚ
  volume_sol : ℚ
  liquidity_sol : ℚ
  transaction_count : ℚ
  price_1hr_change : ℚ
  price_24hr_change : Option ℚ
  price_7d_change : Option ℚ
  protocol : String
  source : String
  last_updated : ℚ
deriving DecidableEq, Repr

/-- src/types/token.types.ts: `AggregatedToken extends Token`. -/
structure AggregatedToken extends Token where
  sources : List String
  data_quality_score : ℕ
deriving DecidableEq, Repr

/-- src/config/constants.ts: `CONSTANTS.SOURCE_PRIORITY`, with unknown
sources defaulting to `0` via the `|| 0` in `mergeDuplicateTokens`. -/
def sourcePriority (s : String) : ℕ :=
  if s = "dexscreener" then 3
  else if s = "jupiter" then 2
  else if s = "geckoterminal" then 1
  else 0

/-- aggregator.service.ts `calculateQualityScore` (lines 111-133).  The final
`+10` models `token.price_1hr_change !== undefined`, which is always true
since the `Token` interface declares that field as a required `number`. -/
def calculateQualityScore (token : Token) : ℕ :=
  min ((if token.price_sol > 0 then 20 else 0)
    + (if token.volume_sol > 0 then 20 else 0)
    + (if token.liquidity_sol > 0 then 20 else 0)
    + (if token.market_cap_sol > 0 then 15 else 0)
    + (if token.transaction_count > 0 then 15 else 0)
    + 10) 100

/-- JS truthiness of an optional numeric field: `undefined` and `0` are
falsy, every other number is truthy. -/
def jsTruthy (o : Option ℚ) : Bool :=
  match o with
  | none => false
  | some q => q != 0

/-- aggregator.service.ts lines 90-92: the merged 24h change.  The source is
the expression `e && n ? avg : e || n` on optional numbers, so both the
ternary condition and the fallback use JS truthiness. -/
def merge24hChange (e n : Option ℚ) (existingCount : ℕ) : Option ℚ :=
  if jsTruthy e && jsTruthy n then
    some ((e.getD 0 * existingCount + n.getD 0) / (existingCount + 1))
  else if jsTruthy e then e else n

/-- aggregator.service.ts `mergeDuplicateTokens` (lines 61-106). -/
def mergeDuplicateTokens (existing : AggregatedToken) (newToken : Token) : AggregatedToken :=
  let existingPriority := sourcePriority existing.source
  let newPriority := sourcePriority newToken.source
  let primaryToken : Token :=
    if newPriority > existingPriority then newToken else existing.toToken
  let volumeCount : ℚ := (existing.sources.length : ℚ) + 1
  { toToken := { primaryToken with
      token_address := existing.token_address
      price_sol :=
        (existing.price_sol * (existing.sources.length : ℚ) + newToken.price_sol) / volumeCount
      volume_sol := existing.volume_sol + newToken.volume_sol
      liquidity_sol := existing.liquidity_sol + newToken.liquidity_sol
      transaction_count := existing.transaction_count + newToken.transaction_count
      price_1hr_change :=
        (existing.price_1hr_change * (existing.sources.length : ℚ) + newToken.price_1hr_change)
          / volumeCount
      price_24hr_change :=
        merge24hChange existing.price_24hr_change newToken.price_24hr_change
          existing.sources.length
      last_updated := max existing.last_updated newToken.last_updated }
    sources := existing.sources ++ [newToken.source]
    data_quality_score :=
      calculateQualityScore
        { primaryToken with volume_sol := existing.volume_sol + newToken.volume_sol } }

/-- aggregator.service.ts lines 36-40: the `AggregatedToken` seeded on the
first occurrence of an address. -/
def seedToken (t : Token) : AggregatedToken :=
  { toToken := t
    sources := [t.source]
    data_quality_score := calculateQualityScore t }

/-- One iteration of the `for (const token of allTokens)` loop in
`mergeTokens` (lines 31-47). -/
def mergeStep (m : List (String × AggregatedToken)) (t : Token) :
    List (String × AggregatedToken) :=
  let address := jsToLower t.token_address
  match mapGet m address with
  | none => mapSet m address (seedToken t)
  | some existing => mapSet m address (mergeDuplicateTokens existing t)

/-- aggregator.service.ts `mergeTokens` (lines 20-56): flatten the input
arrays, fold the merge loop over a map keyed by lower-cased address, and
return the map values in insertion order. -/
def mergeTokens (tokenArrays : List (List Token)) : List AggregatedToken :=
  ((tokenArrays.flatten).foldl mergeStep []).map Prod.snd

/-- The sort keys accepted by `sortTokens` and the filter criteria. -/
inductive SortBy where
  | volume
  | priceChange
  | marketCap
  | liquidity
deriving DecidableEq, Repr

/-- The periods accepted by `sortTokens` and the filter criteria. -/
inductive Period where
  | h1
  | h24
  | d7
deriving DecidableEq, Repr

/-- The numeric comparison key selected by the `sortTokens` comparator
(lines 145-171): `b.<metric> - a.<metric>`, with the price-change metric
selected by period and the optional fields defaulting to 0 via `?? 0`. -/
def sortMetric (sortBy : SortBy) (period : Period) (t : AggregatedToken) : ℚ :=
  match sortBy with
  | .volume => t.volume_sol
  | .priceChange =>
    match period with
    | .h1 => t.price_1hr_change
    | .h24 => t.price_24hr_change.getD 0
    | .d7 => t.price_7d_change.getD 0
  | .marketCap => t.market_cap_sol
  | .liquidity => t.liquidity_sol

/-- The ordering induced by the `sortTokens` comparator
`cmp a b = metric b - metric a`: records in comparator order satisfy
`cmp a b <= 0`, that is, `metric b <= metric a` (descending). -/
def sortLe (sortBy : SortBy) (period : Period) (a b : AggregatedToken) : Bool :=
  decide (sortMetric sortBy period b ≤ sortMetric sortBy period a)

/-- aggregator.service.ts `sortTokens` (lines 138-172): `tokens.sort(cmp)`
with the consistent comparator `cmp a b = metric b - metric a`.  Per the
ECMAScript specification, `Array.prototype.sort` with a consistent
comparator is a stable sort into non-decreasing comparator order, which is
exactly `mergeSort` under the relation `cmp a b <= 0`. -/
def sortTokens (tokens : List AggregatedToken) (sortBy : SortBy) (period : Period) :
    List AggregatedToken :=
  tokens.mergeSort (sortLe sortBy period)

/-- `Array.prototype.sort` sorts the receiver in place and returns the same
array object: after the call to `sortTokens`, the array passed by the
caller holds the sorted sequence, modelled here as the post-call value of
the argument array. -/
def sortTokensArrayAfterCall (tokens : List AggregatedToken) (sortBy : SortBy)
    (period : Period) : List AggregatedToken :=
  sortTokens tokens sortBy period

/-- The filter argument of aggregator.service.ts `filterTokens`: absent
fields model `undefined` members. -/
structure FilterOpts where
  minVolume : Option ℚ
  minLiquidity : Option ℚ
  minQualityScore : Option ℕ
deriving DecidableEq, Repr

/-- aggregator.service.ts `filterTokens` (lines 177-207): three sequential
conditional filters, each applied only when the threshold is present. -/
def filterTokens (tokens : List AggregatedToken) (filters : FilterOpts) :
    List AggregatedToken :=
  let f1 := match filters.minVolume with
    | none => tokens
    | some v => tokens.filter (fun t => v ≤ t.volume_sol)
  let f2 := match filters.minLiquidity with
    | none => f1
    | some v => f1.filter (fun t => v ≤ t.liquidity_sol)
  match filters.minQualityScore with
  | none => f2
  | some v => f2.filter (fun t => v ≤ t.data_quality_score)

/-- IEEE-754 double values as they arise in `detectSignificantChanges`: a
finite value (exact, since no claim here depends on rounding), the two
infinities produced by dividing a non-zero value by zero, and NaN produced
by `0 / 0`. -/
inductive JSNum where
  | num : ℚ → JSNum
  | posInf : JSNum
  | negInf : JSNum
  | nan : JSNum
deriving DecidableEq, Repr

/-- JS division of two finite numbers: `x / 0` is `Infinity`, `-Infinity`
or `NaN` according to the sign of `x`. -/
def jsDivNum (a b : ℚ) : JSNum :=
  if b ≠ 0 then .num (a / b)
  else if a > 0 then .posInf
  else if a < 0 then .negInf
  else .nan

/-- Multiplication by the finite positive literal `100`. -/
def jsMul100 (x : JSNum) : JSNum :=
  match x with
  | .num q => .num (q * 100)
  | .posInf => .posInf
  | .negInf => .negInf
  | .nan => .nan

/-- `Math.abs` on a JS number. -/
def jsAbs (x : JSNum) : JSNum :=
  match x with
  | .num q => .num |q|
  | .posInf => .posInf
  | .negInf => .posInf
  | .nan => .nan

/-- `x >= t` for a JS number `x` and a finite threshold `t`: any comparison
with NaN is false, `Infinity >= t` is true. -/
def jsGeNum (x : JSNum) (t : ℚ) : Bool :=
  match x with
  | .num q => decide (t ≤ q)
  | .posInf => true
  | .negInf => false
  | .nan => false

/-- aggregator.service.ts lines 224-226: `new Map(oldTokens.map(t =>
[t.token_address.toLowerCase(), t]))` — for duplicate keys the later entry
overwrites the earlier one. -/
def oldMapOf (oldTokens : List AggregatedToken) : List (String × AggregatedToken) :=
  oldTokens.foldl (fun m t => mapSet m (jsToLower t.token_address) t) []

/-- aggregator.service.ts lines 234-238: `Math.abs(((new - old) / old) * 100)`
compared against the price threshold. -/
def priceHit (oldMap : List (String × AggregatedToken)) (priceThreshold : ℚ)
    (newToken : AggregatedToken) : Bool :=
  match mapGet oldMap (jsToLower newToken.token_address) with
  | none => false
  | some oldToken =>
    jsGeNum (jsAbs (jsMul100 (jsDivNum (newToken.price_sol - oldToken.price_sol)
      oldToken.price_sol))) priceThreshold

/-- aggregator.service.ts lines 243-247: the volume change percentage is
`((new - old) / old) * 100` when `old > 0` and the literal `0` otherwise,
then compared against the volume threshold. -/
def volumeHit (oldMap : List (String × AggregatedToken)) (volumeThreshold : ℚ)
    (newToken : AggregatedToken) : Bool :=
  match mapGet oldMap (jsToLower newToken.token_address) with
  | none => false
  | some oldToken =>
    decide (volumeThreshold ≤
      (if oldToken.volume_sol > 0 then
        (newToken.volume_sol - oldToken.volume_sol) / oldToken.volume_sol * 100
      else 0))

/-- One iteration of the `for (const newToken of newTokens)` loop in
`detectSignificantChanges` (lines 228-250), pushing onto the two result
arrays. -/
def detectStep (oldMap : List (String × AggregatedToken)) (priceThreshold volumeThreshold : ℚ)
    (acc : List AggregatedToken × List AggregatedToken) (newToken : AggregatedToken) :
    List AggregatedToken × List AggregatedToken :=
  match mapGet oldMap (jsToLower newToken.token_address) with
  | none => acc
  | some _ =>
    let acc1 :=
      if priceHit oldMap priceThreshold newToken then (acc.1 ++ [newToken], acc.2) else acc
    if volumeHit oldMap volumeThreshold newToken then (acc1.1, acc1.2 ++ [newToken]) else acc1

/-- aggregator.service.ts `detectSignificantChanges` (lines 212-258),
returning `(priceChanges, volumeSpikes)`. -/
def detectSignificantChanges (oldTokens newTokens : List AggregatedToken)
    (priceThreshold volumeThreshold : ℚ) :
    List AggregatedToken × List AggregatedToken :=
  newTokens.foldl (detectStep (oldMapOf oldTokens) priceThreshold volumeThreshold) ([], [])

/-- The criteria object submitted with a `subscribe:filters` message, as
consumed by websocket.service.ts `normalizeFilters`: each field is either
absent/of the wrong runtime type (`none`) or a number / candidate string. -/
structure RawCriteria where
  sortBy : Option String
  period : Option String
  minVolume : Option ℚ
  minLiquidity : Option ℚ
  limit : Option ℚ
deriving DecidableEq, Repr

/-- A normalized filter criterion as stored per filter room. -/
structure NormCriteria where
  sortBy : SortBy
  period : Period
  minVolume : Option ℚ
  minLiquidity : Option ℚ
  limit : ℚ
deriving DecidableEq, Repr

/-- websocket.service.ts `normalizeFilters` (lines 268-285). The limit is
kept whenever it is a number greater than 0 (capped at 100 via `Math.min`)
and replaced by the default 20 otherwise. -/
def normalizeFilters (criteria : RawCriteria) : NormCriteria :=
  let sortBy : SortBy :=
    match criteria.sortBy with
    | some "volume" => .volume
    | some "priceChange" => .priceChange
    | some "marketCap" => .marketCap
    | some "liquidity" => .liquidity
    | _ => .volume
  let period : Period :=
    match criteria.period with
    | some "1h" => .h1
    | some "24h" => .h24
    | some "7d" => .d7
    | _ => .h24
  let limit : ℚ :=
    match criteria.limit with
    | some l => if l > 0 then min l 100 else 20
    | none => 20
  { sortBy := sortBy
    period := period
    minVolume := criteria.minVolume
    minLiquidity := criteria.minLiquidity
    limit := limit }

/-- Rendering of a `SortBy` value into the room-name string. -/
def sortByStr (s : SortBy) : String :=
  match s with
  | .volume => "volume"
  | .priceChange => "priceChange"
  | .marketCap => "marketCap"
  | .liquidity => "liquidity"

/-- Rendering of a `Period` value into the room-name string. -/
def periodStr (p : Period) : String :=
  match p with
  | .h1 => "1h"
  | .h24 => "24h"
  | .d7 => "7d"

/-- Rendering of a rational into the room-name string; stands in for JS
number-to-string interpolation (only determinism matters for the claims). -/
def qStr (q : ℚ) : String :=
  toString q

/-- websocket.service.ts `filterRoomId` (lines 287-296). -/
def filterRoomId (criteria : NormCriteria) : String :=
  "filters:sort=" ++ sortByStr criteria.sortBy
    ++ "&period=" ++ periodStr criteria.period
    ++ "&minVol=" ++ qStr (criteria.minVolume.getD 0)
    ++ "&minLiq=" ++ qStr (criteria.minLiquidity.getD 0)
    ++ "&limit=" ++ qStr criteria.limit

/-- websocket.service.ts `applyFilters` (lines 298-308): filter with the
hard-coded `minQualityScore: 50`, sort, then `slice(0, limit)`; `slice`
truncates a fractional limit toward zero. -/
def applyFilters (tokens : List AggregatedToken) (criteria : NormCriteria) :
    List AggregatedToken :=
  let filtered := filterTokens tokens
    { minVolume := criteria.minVolume
      minLiquidity := criteria.minLiquidity
      minQualityScore := some 50 }
  let sorted := sortTokens filtered criteria.sortBy criteria.period
  sorted.take criteria.limit.floor.toNat

/-- The registry state of `WebSocketService` relevant to filter groups:
`filterRooms` (room name to criterion), `socketFilterRooms` (socket id to
its joined room names, a `Set` in insertion order), and the socket.io
adapter room membership (room name to member socket ids; socket.io drops a
room once its last member leaves). -/
structure WSState where
  filterRooms : List (String × NormCriteria)
  socketFilterRooms : List (String × List String)
  adapterRooms : List (String × List String)
deriving DecidableEq, Repr

/-- `socket.join(room)` on the socket.io adapter. -/
def adapterJoin (rooms : List (String × List String)) (room sid : String) :
    List (String × List String) :=
  match mapGet rooms room with
  | none => mapSet rooms room [sid]
  | some members => if sid ∈ members then rooms else mapSet rooms room (members ++ [sid])

/-- `socket.leave(room)` on the socket.io adapter: the member is removed and
an emptied room is dropped from the adapter. -/
def adapterLeave (rooms : List (String × List String)) (room sid : String) :
    List (String × List String) :=
  match mapGet rooms room with
  | none => rooms
  | some members =>
    let remaining := members.erase sid
    if remaining = [] then mapDelete rooms room else mapSet rooms room remaining

/-- `this.io.sockets.adapter.rooms.get(room)?.size || 0`. -/
def roomSize (rooms : List (String × List String)) (room : String) : ℕ :=
  ((mapGet rooms room).map List.length).getD 0

/-- websocket.service.ts `subscribe:filters` handler (lines 106-122):
normalize, register the criterion only if the room is new, record the
membership on both sides. -/
def subscribeFilters (s : WSState) (sid : String) (criteria : RawCriteria) : WSState :=
  let normalized := normalizeFilters criteria
  let room := filterRoomId normalized
  let filterRooms :=
    if (mapGet s.filterRooms room).isSome then s.filterRooms
    else mapSet s.filterRooms room normalized
  let socketFilterRooms :=
    match mapGet s.socketFilterRooms sid with
    | none => mapSet s.socketFilterRooms sid [room]
    | some rooms =>
      mapSet s.socketFilterRooms sid (if room ∈ rooms then rooms else rooms ++ [room])
  { filterRooms := filterRooms
    socketFilterRooms := socketFilterRooms
    adapterRooms := adapterJoin s.adapterRooms room sid }

/-- One iteration of the `rooms.forEach` loop in the disconnect handler
(websocket.service.ts lines 82-88): leave the room, then drop the room
criterion when no members remain. -/
def disconnectStep (sid : String) (s : WSState) (room : String) : WSState :=
  let adapter := adapterLeave s.adapterRooms room sid
  if roomSize adapter room = 0 then
    { s with adapterRooms := adapter, filterRooms := mapDelete s.filterRooms room }
  else
    { s with adapterRooms := adapter }

/-- websocket.service.ts disconnect handler (lines 78-96) restricted to the
filter-group registry: process every room the socket had joined, then drop
the socket's membership record. -/
def disconnect (s : WSState) (sid : String) : WSState :=
  match mapGet s.socketFilterRooms sid with
  | none => s
  | some rooms =>
    let s' := rooms.foldl (disconnectStep sid) s
    { s' with socketFilterRooms := mapDelete s'.socketFilterRooms sid }

/-- tokenData.service.ts `getTokens` (lines 35-96), cache-miss compute path
after fetch: filter with the hard-coded `minQualityScore: 50`, sort, then
`slice(offset, offset + limit)` from `paginateResults`. -/
def getTokensData (tokens : List AggregatedToken) (minVolume minLiquidity : Option ℚ)
    (sortBy : SortBy) (period : Period) (offset limit : ℕ) : List AggregatedToken :=
  let filtered := filterTokens tokens
    { minVolume := minVolume
      minLiquidity := minLiquidity
      minQualityScore := some 50 }
  let sorted := sortTokens filtered sortBy period
  (sorted.drop offset).take limit

/-- The refresh-lock state of `DataRefreshJob`: the `isRunning` flag plus a
count of executions of the upstream fetch-and-merge sequence. -/
structure RefreshState where
  isRunning : Bool
  fetchCount : ℕ
deriving DecidableEq, Repr

/-- dataRefresh.job.ts `refresh` entry (lines 54-61): the check of
`isRunning` and the assignment `isRunning = true` run synchronously, with
no await point between them, so a trigger is an atomic test-and-set on the
single-threaded event loop.  Returns the new state and whether this trigger
started the fetch-and-merge sequence (false = skipped). -/
def refreshBegin (s : RefreshState) : RefreshState × Bool :=
  if s.isRunning then (s, false)
  else ({ isRunning := true, fetchCount := s.fetchCount + 1 }, true)

/-- dataRefresh.job.ts `finally` block (line 126): release the lock. -/
def refreshEnd (s : RefreshState) : RefreshState :=
  { s with isRunning := false }

/-- The externally visible effects of one refresh cycle body: the stored
previous snapshot after the cycle, the emitted alert events (with their
change percentages as JS numbers), and the full/filtered refresh
broadcasts. -/
structure RefreshOutcome where
  previousTokens : List AggregatedToken
  priceAlerts : List (AggregatedToken × JSNum)
  volumeAlerts : List (AggregatedToken × ℚ)
  fullRefreshBroadcast : Option (List AggregatedToken)
  filteredBroadcast : Bool
deriving DecidableEq, Repr

/-- `Array.prototype.find` over the previous snapshot by lower-cased
address (dataRefresh.job.ts lines 85-87 and 97-99): first match. -/
def findPrev (previousTokens : List AggregatedToken) (address : String) :
    Option AggregatedToken :=
  previousTokens.find? (fun t => jsToLower t.token_address = jsToLower address)

/-- dataRefresh.job.ts `refresh` body (lines 63-121) given the fetched and
merged token list and the connected-client count: an empty result returns
early (lines 69-72) leaving the previous snapshot and emitting nothing;
otherwise alerts are emitted from the detected changes, the full and
filtered refresh broadcasts are gated on the client count, and the
previous snapshot is replaced (line 116). -/
def refreshCycleBody (previousTokens newTokens : List AggregatedToken)
    (clientCount : ℕ) (priceThreshold volumeThreshold : ℚ) : RefreshOutcome :=
  if newTokens = [] then
    { previousTokens := previousTokens
      priceAlerts := []
      volumeAlerts := []
      fullRefreshBroadcast := none
      filteredBroadcast := false }
  else if previousTokens.length > 0 then
    let detected :=
      detectSignificantChanges previousTokens newTokens priceThreshold volumeThreshold
    { previousTokens := newTokens
      priceAlerts := detected.1.filterMap (fun t =>
        match findPrev previousTokens t.token_address with
        | none => none
        | some oldToken =>
          some (t, jsMul100 (jsDivNum (t.price_sol - oldToken.price_sol) oldToken.price_sol)))
      volumeAlerts := detected.2.filterMap (fun t =>
        match findPrev previousTokens t.token_address with
        | none => none
        | some oldToken =>
          if oldToken.volume_sol > 0 then
            some (t, (t.volume_sol - oldToken.volume_sol) / oldToken.volume_sol * 100)
          else none)
      fullRefreshBroadcast := if clientCount > 0 then some (newTokens.take 50) else none
      filteredBroadcast := clientCount > 0 }
  else
    { previousTokens := newTokens
      priceAlerts := []
      volumeAlerts := []
      fullRefreshBroadcast := none
      filteredBroadcast := false }

/-- A concrete sample record mirroring the fixtures of
tests/unit/aggregator.service.test.ts. -/
def baseToken : Token :=
  { token_address := "a"
    token_name := "Token A"
    token_ticker := "TKA"
    price_sol := 1
    market_cap_sol := 0
    volume_sol := 100
    liquidity_sol := 0
    transaction_count := 0
    price_1hr_change := 5
    price_24hr_change := none
    price_7d_change := none
    protocol := "Raydium"
    source := "dexscreener"
    last_updated := 0 }

/-- A concrete sample aggregated record. -/
def baseAgg : AggregatedToken :=
  seedToken baseToken

theorem mapGet_set_self {α : Type} (m : List (String × α)) (k : String) (v : α) :
    mapGet (mapSet m k v) k = some v := by
  induction m with
  | nil => simp [mapSet, mapGet]
  | cons p rest ih =>
    obtain ⟨k', v'⟩ := p
    by_cases h : k' = k
    · simp [mapSet, mapGet, h]
    · simp [mapSet, mapGet, h, ih]

theorem mapGet_set_ne {α : Type} (m : List (String × α)) (k k' : String) (v : α)
    (h : k' ≠ k) : mapGet (mapSet m k v) k' = mapGet m k' := by
  have h' : ¬ k = k' := fun hh => h hh.symm
  induction m with
  | nil => simp [mapSet, mapGet, h']
  | cons p rest ih =>
    obtain ⟨k0, v0⟩ := p
    by_cases h0 : k0 = k
    · subst h0
      simp [mapSet, mapGet, h']
    · simp [mapSet, mapGet, h0, ih]

theorem mapGet_eq_none_iff {α : Type} (m : List (String × α)) (k : String) :
    mapGet m k = none ↔ k ∉ mapKeys m := by
  induction m with
  | nil => simp [mapGet, mapKeys]
  | cons p rest ih =>
    obtain ⟨k', v'⟩ := p
    by_cases h : k' = k
    · simp [mapGet, mapKeys, h]
    · have h' : ¬ k = k' := fun hh => h hh.symm
      simp [mapGet, mapKeys, h, h', ih]

theorem mapGet_mem {α : Type} (m : List (String × α)) (k : String) (v : α)
    (h : mapGet m k = some v) : (k, v) ∈ m := by
  induction m with
  | nil => simp [mapGet] at h
  | cons p rest ih =>
    obtain ⟨k', v'⟩ := p
    by_cases h0 : k' = k
    · subst h0
      simp [mapGet] at h
      simp [h]
    · simp [mapGet, h0] at h
      exact List.mem_cons_of_mem _ (ih h)

theorem mapSet_of_get_none {α : Type} (m : List (String × α)) (k : String) (v : α)
    (h : mapGet m k = none) : mapSet m k v = m ++ [(k, v)] := by
  induction m with
  | nil => simp [mapSet]
  | cons p rest ih =>
    obtain ⟨k', v'⟩ := p
    by_cases h0 : k' = k
    · simp [mapGet, h0] at h
    · simp [mapGet, h0] at h
      simp [mapSet, h0, ih h]

theorem mapKeys_set_of_isSome {α : Type} (m : List (String × α)) (k : String) (v : α)
    (h : (mapGet m k).isSome) : mapKeys (mapSet m k v) = mapKeys m := by
  induction m with
  | nil => simp [mapGet] at h
  | cons p rest ih =>
    obtain ⟨k', v'⟩ := p
    by_cases h0 : k' = k
    · simp [mapSet, mapKeys, h0]
    · simp [mapGet, h0] at h
      simp [mapSet, mapKeys, h0] at ih ⊢
      exact ih h

theorem mem_mapSet {α : Type} (m : List (String × α)) (k : String) (v : α) (p : String × α)
    (h : p ∈ mapSet m k v) : p = (k, v) ∨ p ∈ m := by
  induction m with
  | nil => simp [mapSet] at h; simp [h]
  | cons q rest ih =>
    obtain ⟨k', v'⟩ := q
    by_cases h0 : k' = k
    · simp [mapSet, h0] at h
      rcases h with h | h
      · exact Or.inl h
      · exact Or.inr (List.mem_cons_of_mem _ h)
    · simp [mapSet, h0] at h
      rcases h with h | h
      · exact Or.inr (by simp [h])
      · rcases ih h with h1 | h1
        · exact Or.inl h1
        · exact Or.inr (List.mem_cons_of_mem _ h1)

theorem mapGet_delete_ne {α : Type} (m : List (String × α)) (k k' : String)
    (h : k' ≠ k) : mapGet (mapDelete m k) k' = mapGet m k' := by
  have h' : ¬ k = k' := fun hh => h hh.symm
  induction m with
  | nil => simp [mapDelete]
  | cons p rest ih =>
    obtain ⟨k0, v0⟩ := p
    by_cases h0 : k0 = k
    · subst h0
      simp [mapDelete, mapGet, h']
    · simp [mapDelete, mapGet, h0, ih]

theorem mapKeys_delete_sublist {α : Type} (m : List (String × α)) (k : String) :
    List.Sublist (mapKeys (mapDelete m k)) (mapKeys m) := by
  induction m with
  | nil => simp [mapDelete]
  | cons p rest ih =>
    obtain ⟨k0, v0⟩ := p
    by_cases h0 : k0 = k
    · simp [mapDelete, mapKeys, h0]
    · simp [mapDelete, mapKeys, h0]
      exact ih

theorem mapGet_delete_self {α : Type} (m : List (String × α)) (k : String)
    (hnd : (mapKeys m).Nodup) : mapGet (mapDelete m k) k = none := by
  induction m with
  | nil => simp [mapDelete, mapGet]
  | cons p rest ih =>
    obtain ⟨k0, v0⟩ := p
    simp [mapKeys] at hnd
    by_cases h0 : k0 = k
    · subst h0
      simp [mapDelete]
      rw [mapGet_eq_none_iff]
      simp [mapKeys]
      exact hnd.1
    · simp [mapDelete, mapGet, h0]
      exact ih hnd.2

theorem mapKeys_delete_nodup {α : Type} (m : List (String × α)) (k : String)
    (hnd : (mapKeys m).Nodup) : (mapKeys (mapDelete m k)).Nodup :=
  (mapKeys_delete_sublist m k).nodup hnd

/-- C3 counterexample data: existing 24h change `0` (defined), incoming `10`. -/
def c3Existing : AggregatedToken :=
  seedToken { baseToken with price_24hr_change := some 0 }

/-- C3 counterexample data: the incoming record. -/
def c3Incoming : Token :=
  { baseToken with source := "jupiter", price_24hr_change := some 10 }

/-- C3: the claim states that the merged 24h change is the weighted average
`(0 * 1 + 10) / 2 = 5` whenever both sides are defined, undefined sides
excepted.  At this input both 24h changes are defined, yet the code yields
`10`: the ternary `e && n ? avg : e || n` treats the defined value `0` as
falsy and falls back to the incoming side. -/
theorem C3_zero_24h_change_counterexample :
    (mergeDuplicateTokens c3Existing c3Incoming).price_24hr_change = some 10
    ∧ ((c3Existing.price_24hr_change.getD 0 * (c3Existing.sources.length : ℚ)
        + c3Incoming.price_24hr_change.getD 0) / ((c3Existing.sources.length : ℚ) + 1) = 5)
    ∧ (5 : ℚ) ≠ 10 := by
  refine ⟨?_, by norm_num [c3Existing, c3Incoming, seedToken, baseToken], by norm_num⟩
  simp [c3Existing, c3Incoming, seedToken, baseToken, mergeDuplicateTokens, merge24hChange,
    jsTruthy, sourcePriority]

/-- C3 (amended): the merged price and 1h change are the weighted running
averages of the claim; the 24h change is that average only when both sides
are defined and non-zero (JS truthiness), and otherwise falls back to the
existing side when it is defined and non-zero, else to the incoming side. -/
theorem C3_merge_averages (existing : AggregatedToken) (newToken : Token) :
    (mergeDuplicateTokens existing newToken).price_sol
      = (existing.price_sol * (existing.sources.length : ℚ) + newToken.price_sol)
        / ((existing.sources.length : ℚ) + 1)
    ∧ (mergeDuplicateTokens existing newToken).price_1hr_change
      = (existing.price_1hr_change * (existing.sources.length : ℚ) + newToken.price_1hr_change)
        / ((existing.sources.length : ℚ) + 1)
    ∧ (mergeDuplicateTokens existing newToken).price_24hr_change
      = (if jsTruthy existing.price_24hr_change && jsTruthy newToken.price_24hr_change then
          some ((existing.price_24hr_change.getD 0 * (existing.sources.length : ℚ)
            + newToken.price_24hr_change.getD 0) / ((existing.sources.length : ℚ) + 1))
        else if jsTruthy existing.price_24hr_change then existing.price_24hr_change
        else newToken.price_24hr_change) := by
  refine ⟨?_, ?_, ?_⟩ <;> simp [mergeDuplicateTokens, merge24hChange]

/-- C4 counterexample data: existing record with zero liquidity from the
higher-priority source. -/
def c4Existing : AggregatedToken :=
  seedToken baseToken

/-- C4 counterexample data: incoming record carrying liquidity 100 from the
lower-priority source. -/
def c4Incoming : Token :=
  { baseToken with source := "jupiter", liquidity_sol := 100 }

/-- C4: the claim states the stored quality score equals
`calculateQualityScore` applied to the merged record's own field values.
At this input the merged record has liquidity 100 (summed), so the score
recomputed from the merged values is 70, but the stored score is 50: the
code scores the primary record with only the volume replaced by the sum,
ignoring the merged liquidity. -/
theorem C4_score_not_merged_counterexample :
    (mergeDuplicateTokens c4Existing c4Incoming).data_quality_score = 50
    ∧ calculateQualityScore (mergeDuplicateTokens c4Existing c4Incoming).toToken = 70
    ∧ (mergeDuplicateTokens c4Existing c4Incoming).data_quality_score
      ≠ calculateQualityScore (mergeDuplicateTokens c4Existing c4Incoming).toToken := by
  have h1 : (mergeDuplicateTokens c4Existing c4Incoming).data_quality_score = 50 := by
    simp +decide [c4Existing, c4Incoming, mergeDuplicateTokens, seedToken, baseToken,
      calculateQualityScore, sourcePriority]
  have h2 : calculateQualityScore (mergeDuplicateTokens c4Existing c4Incoming).toToken = 70 := by
    simp +decide [c4Existing, c4Incoming, mergeDuplicateTokens, seedToken, baseToken,
      calculateQualityScore, sourcePriority, merge24hChange, jsTruthy]
  exact ⟨h1, h2, by rw [h1, h2]; norm_num⟩

/-- C4 (amended): after a merge the stored quality score equals
`calculateQualityScore` applied to the primary (higher-priority) record
with only its volume replaced by the summed volume; the merged price,
summed liquidity and summed transaction count do not feed the score. -/
theorem C4_score_from_primary (existing : AggregatedToken) (newToken : Token) :
    (mergeDuplicateTokens existing newToken).data_quality_score
      = calculateQualityScore
          { (if sourcePriority newToken.source > sourcePriority existing.source then newToken
             else existing.toToken) with
            volume_sol := existing.volume_sol + newToken.volume_sol } := by
  simp [mergeDuplicateTokens]

/-- C6: from the Idle state, the first trigger performs the test-and-set
and runs exactly one fetch-and-merge; a second trigger arriving while the
first is in flight observes the lock and returns with the state unchanged,
so the fetch count rises by exactly one. -/
theorem C6_refresh_lock (s : RefreshState) (h : s.isRunning = false) :
    (refreshBegin s).2 = true
    ∧ (refreshBegin (refreshBegin s).1).2 = false
    ∧ (refreshBegin (refreshBegin s).1).1 = (refreshBegin s).1
    ∧ (refreshBegin s).1.fetchCount = s.fetchCount + 1 := by
  simp [refreshBegin, h]

/-- C6 witness at the initial Idle state. -/
theorem C6_refresh_lock_witness :
    (RefreshState.mk false 0).isRunning = false
    ∧ ((refreshBegin (RefreshState.mk false 0)).2 = true
      ∧ (refreshBegin (refreshBegin (RefreshState.mk false 0)).1).2 = false
      ∧ (refreshBegin (refreshBegin (RefreshState.mk false 0)).1).1
        = (refreshBegin (RefreshState.mk false 0)).1
      ∧ (refreshBegin (RefreshState.mk false 0)).1.fetchCount
        = (RefreshState.mk false 0).fetchCount + 1) :=
  ⟨rfl, C6_refresh_lock (RefreshState.mk false 0) rfl⟩

/-- C7: a refresh cycle whose merged result is empty leaves the stored
previous snapshot untouched and emits no alert or broadcast of any kind;
a non-empty merged result replaces the previous snapshot. -/
theorem C7_empty_refresh (previousTokens newTokens : List AggregatedToken)
    (clientCount : ℕ) (pt vt : ℚ) :
    refreshCycleBody previousTokens [] clientCount pt vt
      = { previousTokens := previousTokens
          priceAlerts := []
          volumeAlerts := []
          fullRefreshBroadcast := none
          filteredBroadcast := false }
    ∧ (newTokens ≠ [] →
        (refreshCycleBody previousTokens newTokens clientCount pt vt).previousTokens
          = newTokens) := by
  constructor
  · simp [refreshCycleBody]
  · intro h
    unfold refreshCycleBody
    rw [if_neg h]
    by_cases hp : previousTokens.length > 0 <;> simp [hp]

/-- C7 witness: a non-empty fetched list replaces the snapshot at a
concrete input. -/
theorem C7_empty_refresh_witness :
    ([baseAgg] : List AggregatedToken) ≠ []
    ∧ (refreshCycleBody [] [baseAgg] 1 5 50).previousTokens = [baseAgg] :=
  ⟨by decide, (C7_empty_refresh [] [baseAgg] 1 5 50).2 (by decide)⟩

/-- C8 counterexample: the submitted limit `0.5` is a number greater than 0,
so normalization keeps it (`Math.min(0.5, 100) = 0.5`), producing a limit
outside `[1, 100]`. -/
theorem C8_fractional_limit_counterexample :
    (normalizeFilters
      { sortBy := none, period := none, minVolume := none, minLiquidity := none,
        limit := some (1/2) }).limit = 1/2
    ∧ ¬(1 ≤ (normalizeFilters
        { sortBy := none, period := none, minVolume := none, minLiquidity := none,
          limit := some (1/2) }).limit) := by
  constructor <;> norm_num [normalizeFilters]

/-- C8 (amended): normalization is canonical — criteria that normalize to
the same default-filled value receive the same group name — and the
normalized limit always lies in the half-open interval `(0, 100]`: a
submitted numeric limit greater than zero normalizes to `min(limit, 100)`,
and the default 20 is used when the limit is absent or not greater than
zero. -/
theorem C8_normalize_canonical (c1 c2 : RawCriteria) :
    (normalizeFilters c1 = normalizeFilters c2 →
      filterRoomId (normalizeFilters c1) = filterRoomId (normalizeFilters c2))
    ∧ 0 < (normalizeFilters c1).limit
    ∧ (normalizeFilters c1).limit ≤ 100
    ∧ (c1.limit = none → (normalizeFilters c1).limit = 20)
    ∧ (∀ l, c1.limit = some l → l ≤ 0 → (normalizeFilters c1).limit = 20)
    ∧ (∀ l, c1.limit = some l → 0 < l → (normalizeFilters c1).limit = min l 100) := by
  refine ⟨fun h => by rw [h], ?_, ?_, ?_, ?_, ?_⟩
  · match h : c1.limit with
    | none => simp [normalizeFilters, h]
    | some l =>
      by_cases hl : l > 0
      · simp [normalizeFilters, h, hl]
      · simp [normalizeFilters, h, hl]
  · match h : c1.limit with
    | none => norm_num [normalizeFilters, h]
    | some l =>
      by_cases hl : l > 0
      · norm_num [normalizeFilters, h, hl]
      · norm_num [normalizeFilters, h, hl]
  · intro h
    simp [normalizeFilters, h]
  · intro l h hl
    simp [normalizeFilters, h, not_lt.mpr hl]
  · intro l h hl
    simp [normalizeFilters, h, hl]

/-- C8 witness: the two identical example criteria of the spec normalize
equally and join the same group, their submitted positive limit 2 passes
through as `min 2 100`, and a fresh criterion gets the default limit
20. -/
theorem C8_normalize_canonical_witness :
    normalizeFilters
        { sortBy := some "volume", period := some "24h", minVolume := some 40,
          minLiquidity := none, limit := some 2 }
      = normalizeFilters
        { sortBy := some "volume", period := some "24h", minVolume := some 40,
          minLiquidity := none, limit := some 2 }
    ∧ filterRoomId (normalizeFilters
        { sortBy := some "volume", period := some "24h", minVolume := some 40,
          minLiquidity := none, limit := some 2 })
      = filterRoomId (normalizeFilters
        { sortBy := some "volume", period := some "24h", minVolume := some 40,
          minLiquidity := none, limit := some 2 })
    ∧ (0 : ℚ) < 2
    ∧ (normalizeFilters
        { sortBy := some "volume", period := some "24h", minVolume := some 40,
          minLiquidity := none, limit := some 2 }).limit = min 2 100
    ∧ ({ sortBy := some "volume", period := some "24h", minVolume := some 40,
          minLiquidity := none, limit := none : RawCriteria }).limit = none
    ∧ (normalizeFilters
        { sortBy := some "volume", period := some "24h", minVolume := some 40,
          minLiquidity := none, limit := none }).limit = 20 :=
  ⟨rfl,
    (C8_normalize_canonical
      { sortBy := some "volume", period := some "24h", minVolume := some 40,
        minLiquidity := none, limit := some 2 }
      { sortBy := some "volume", period := some "24h", minVolume := some 40,
        minLiquidity := none, limit := some 2 }).1 rfl,
    by norm_num,
    (C8_normalize_canonical
      { sortBy := some "volume", period := some "24h", minVolume := some 40,
        minLiquidity := none, limit := some 2 }
      { sortBy := some "volume", period := some "24h", minVolume := some 40,
        minLiquidity := none, limit := some 2 }).2.2.2.2.2 2 rfl (by norm_num),
    rfl,
    (C8_normalize_canonical
      { sortBy := some "volume", period := some "24h", minVolume := some 40,
        minLiquidity := none, limit := none }
      { sortBy := some "volume", period := some "24h", minVolume := some 40,
        minLiquidity := none, limit := none }).2.2.2.1 rfl⟩

theorem sortLe_trans (sortBy : SortBy) (period : Period) (a b c : AggregatedToken)
    (hab : sortLe sortBy period a b) (hbc : sortLe sortBy period b c) :
    sortLe sortBy period a c := by
  simp [sortLe] at hab hbc ⊢
  exact le_trans hbc hab

theorem sortLe_total (sortBy : SortBy) (period : Period) (a b : AggregatedToken) :
    sortLe sortBy period a b || sortLe sortBy period b a := by
  simp [sortLe]
  exact le_total _ _

theorem sortTokens_perm (tokens : List AggregatedToken) (sortBy : SortBy) (period : Period) :
    List.Perm (sortTokens tokens sortBy period) tokens :=
  List.mergeSort_perm tokens _

theorem mem_sortTokens (tokens : List AggregatedToken) (sortBy : SortBy) (period : Period)
    (r : AggregatedToken) (h : r ∈ sortTokens tokens sortBy period) : r ∈ tokens :=
  List.mem_mergeSort.mp h

theorem filterTokens_quality (tokens : List AggregatedToken) (filters : FilterOpts)
    (q : ℕ) (hq : filters.minQualityScore = some q) (r : AggregatedToken)
    (hr : r ∈ filterTokens tokens filters) : q ≤ r.data_quality_score := by
  unfold filterTokens at hr
  rw [hq] at hr
  simpa using (List.mem_filter.mp hr).2

/-- C5 counterexample data: two records out of volume order. -/
def c5Low : AggregatedToken :=
  seedToken baseToken

/-- C5 counterexample data: the higher-volume record, listed second. -/
def c5High : AggregatedToken :=
  seedToken { baseToken with token_address := "b", volume_sol := 500 }

/-- C5: the claim states the input sequence is left unchanged.  But
`Array.prototype.sort` sorts the receiver in place and returns that same
array, so after the call the caller's array holds the reordered sequence,
which differs from the original whenever the input was not already
sorted. -/
theorem C5_sort_in_place_counterexample :
    sortTokensArrayAfterCall [c5Low, c5High] SortBy.volume Period.h24 = [c5High, c5Low]
    ∧ sortTokensArrayAfterCall [c5Low, c5High] SortBy.volume Period.h24 ≠ [c5Low, c5High] := by
  have h : sortTokensArrayAfterCall [c5Low, c5High] SortBy.volume Period.h24
      = [c5High, c5Low] := by
    norm_num [sortTokensArrayAfterCall, sortTokens, List.mergeSort, List.splitInTwo,
      List.merge, sortLe, sortMetric, c5Low, c5High, seedToken, baseToken]
  refine ⟨h, ?_⟩
  rw [h]
  have : c5High ≠ c5Low := by
    norm_num [c5Low, c5High, seedToken, baseToken]
  simp [this]

/-- C5 (amended): the result of `sortTokens` is a reordering of the input,
non-increasing in the selected metric, and records with equal keys keep
their original relative order; however the sort is performed in place on
the input array rather than on a fresh copy (the counterexample shows the
post-call array differs from the input sequence). -/
theorem C5_sort_descending_stable (tokens : List AggregatedToken) (sortBy : SortBy)
    (period : Period) :
    List.Perm (sortTokens tokens sortBy period) tokens
    ∧ List.Pairwise
        (fun a b => sortMetric sortBy period b ≤ sortMetric sortBy period a)
        (sortTokens tokens sortBy period)
    ∧ ∀ v : ℚ,
        (sortTokens tokens sortBy period).filter
          (fun t => decide (sortMetric sortBy period t = v))
        = tokens.filter (fun t => decide (sortMetric sortBy period t = v)) := by
  refine ⟨sortTokens_perm tokens sortBy period, ?_, ?_⟩
  · have h := @List.sorted_mergeSort AggregatedToken (sortLe sortBy period)
      (fun a b c => sortLe_trans sortBy period a b c)
      (fun a b => sortLe_total sortBy period a b) tokens
    exact h.imp (fun hab => by simpa [sortLe] using hab)
  · intro v
    have hsub : List.Sublist
        (tokens.filter (fun t => decide (sortMetric sortBy period t = v))) tokens :=
      List.filter_sublist tokens
    have hpw : (tokens.filter (fun t => decide (sortMetric sortBy period t = v))).Pairwise
        (fun a b => sortLe sortBy period a b = true) := by
      apply List.pairwise_of_forall_mem_list
      intro a ha b hb
      have ha' := (List.mem_filter.mp ha).2
      have hb' := (List.mem_filter.mp hb).2
      simp at ha' hb'
      simp [sortLe, ha', hb']
    have hstable : List.Sublist
        (tokens.filter (fun t => decide (sortMetric sortBy period t = v)))
        (sortTokens tokens sortBy period) :=
      List.sublist_mergeSort
        (fun a b c => sortLe_trans sortBy period a b c)
        (fun a b => sortLe_total sortBy period a b) hpw hsub
    have hfil := hstable.filter (fun t => decide (sortMetric sortBy period t = v))
    rw [List.filter_filter] at hfil
    simp only [Bool.and_self] at hfil
    have hperm := (sortTokens_perm tokens sortBy period).filter
      (fun t => decide (sortMetric sortBy period t = v))
    exact (hfil.eq_of_length hperm.length_eq.symm).symm

/-- C10 witness data: a record whose every scored field is present, giving
quality score 100. -/
def c10Agg : AggregatedToken :=
  seedToken { baseToken with
                market_cap_sol := 50
                liquidity_sol := 30
                transaction_count := 7 }

/-- C10: every record delivered by the read-path list pipeline and by a
filter-group slice (join snapshot or per-refresh broadcast, both of which
compute through `applyFilters`) has quality score at least 50 — the
pipelines pass the hard-coded `minQualityScore: 50` unconditionally. -/
theorem C10_min_quality_threshold (tokens : List AggregatedToken)
    (minVolume minLiquidity : Option ℚ) (sortBy : SortBy) (period : Period)
    (offset limit : ℕ) (criteria : NormCriteria) (r : AggregatedToken) :
    (r ∈ getTokensData tokens minVolume minLiquidity sortBy period offset limit →
      50 ≤ r.data_quality_score)
    ∧ (r ∈ applyFilters tokens criteria → 50 ≤ r.data_quality_score) := by
  constructor
  · intro hr
    simp only [getTokensData] at hr
    have h1 : r ∈ sortTokens (filterTokens tokens
        { minVolume := minVolume, minLiquidity := minLiquidity,
          minQualityScore := some 50 }) sortBy period :=
      List.mem_of_mem_drop (List.mem_of_mem_take hr)
    exact filterTokens_quality _ _ 50 rfl r (mem_sortTokens _ _ _ r h1)
  · intro hr
    simp only [applyFilters] at hr
    have h1 : r ∈ sortTokens (filterTokens tokens
        { minVolume := criteria.minVolume, minLiquidity := criteria.minLiquidity,
          minQualityScore := some 50 }) criteria.sortBy criteria.period :=
      List.mem_of_mem_take hr
    exact filterTokens_quality _ _ 50 rfl r (mem_sortTokens _ _ _ r h1)

/-- C10 witness: a concrete high-quality record is delivered by both
pipelines and its score is at least 50. -/
theorem C10_min_quality_threshold_witness :
    c10Agg ∈ getTokensData [c10Agg] none none SortBy.volume Period.h24 0 20
    ∧ c10Agg ∈ applyFilters [c10Agg]
        { sortBy := SortBy.volume, period := Period.h24, minVolume := none,
          minLiquidity := none, limit := 20 }
    ∧ 50 ≤ c10Agg.data_quality_score := by
  have h1 : c10Agg ∈ getTokensData [c10Agg] none none SortBy.volume Period.h24 0 20 := by
    norm_num [getTokensData, filterTokens, sortTokens, c10Agg, seedToken, baseToken,
      calculateQualityScore]
  have h2 : c10Agg ∈ applyFilters [c10Agg]
      { sortBy := SortBy.volume, period := Period.h24, minVolume := none,
        minLiquidity := none, limit := 20 } := by
    norm_num [applyFilters, filterTokens, sortTokens, c10Agg, seedToken, baseToken,
      calculateQualityScore]
    decide
  exact ⟨h1, h2,
    (C10_min_quality_threshold [c10Agg] none none SortBy.volume Period.h24 0 20
      { sortBy := SortBy.volume, period := Period.h24, minVolume := none,
        minLiquidity := none, limit := 20 } c10Agg).1 h1⟩

/-- The input records of a flattened list that fall under one lower-cased
address key. -/
def tokensWithKey (l : List Token) (k : String) : List Token :=
  l.filter (fun t => decide (jsToLower t.token_address = k))

/-- The number of input records merged under one address key. -/
def countKey (l : List Token) (k : String) : ℕ :=
  (tokensWithKey l k).length

/-- The total volume of the input records under one address key. -/
def sumVolume (l : List Token) (k : String) : ℚ :=
  ((tokensWithKey l k).map Token.volume_sol).sum

/-- The total liquidity of the input records under one address key. -/
def sumLiquidity (l : List Token) (k : String) : ℚ :=
  ((tokensWithKey l k).map Token.liquidity_sol).sum

/-- The total transaction count of the input records under one address key. -/
def sumTxCount (l : List Token) (k : String) : ℚ :=
  ((tokensWithKey l k).map Token.transaction_count).sum

/-- Loop invariant of the `mergeTokens` fold: after processing the records
`l`, the map has no duplicate keys, every stored record's lower-cased
address is its key, absent keys have no processed record, and each stored
record carries the per-key count of contributing sources and the per-key
sums of volume, liquidity and transaction count. -/
def MergeInv (m : List (String × AggregatedToken)) (l : List Token) : Prop :=
  (mapKeys m).Nodup
  ∧ (∀ p ∈ m, jsToLower p.2.token_address = p.1)
  ∧ (∀ k, mapGet m k = none → tokensWithKey l k = [])
  ∧ (∀ k v, mapGet m k = some v →
      v.sources.length = countKey l k
      ∧ v.volume_sol = sumVolume l k
      ∧ v.liquidity_sol = sumLiquidity l k
      ∧ v.transaction_count = sumTxCount l k)

theorem tokensWithKey_append (l : List Token) (t : Token) (k : String) :
    tokensWithKey (l ++ [t]) k
      = tokensWithKey l k ++ (if jsToLower t.token_address = k then [t] else []) := by
  by_cases h : jsToLower t.token_address = k <;>
    simp [tokensWithKey, List.filter_append, h]

theorem mergeInv_step (m : List (String × AggregatedToken)) (l : List Token) (t : Token)
    (h : MergeInv m l) : MergeInv (mergeStep m t) (l ++ [t]) := by
  obtain ⟨hnd, hkeys, hnone, hsome⟩ := h
  cases hget : mapGet m (jsToLower t.token_address) with
  | none =>
    have hstep : mergeStep m t = mapSet m (jsToLower t.token_address) (seedToken t) := by
      simp [mergeStep, hget]
    have hnotmem : jsToLower t.token_address ∉ mapKeys m :=
      (mapGet_eq_none_iff m _).mp hget
    have hset := mapSet_of_get_none m (jsToLower t.token_address) (seedToken t) hget
    rw [hstep]
    refine ⟨?_, ?_, ?_, ?_⟩
    · rw [hset]
      simp only [mapKeys, List.map_append, List.map_cons, List.map_nil]
      rw [List.nodup_append]
      refine ⟨hnd, List.nodup_singleton _, ?_⟩
      intro x hx hx'
      simp at hx'
      subst hx'
      exact hnotmem hx
    · intro p hp
      rcases mem_mapSet m _ _ p hp with h1 | h1
      · subst h1
        simp [seedToken]
      · exact hkeys p h1
    · intro k hk
      by_cases hka : k = jsToLower t.token_address
      · subst hka
        rw [mapGet_set_self] at hk
        exact absurd hk (by simp)
      · rw [mapGet_set_ne m _ k (seedToken t) hka] at hk
        rw [tokensWithKey_append, hnone k hk]
        have : ¬ jsToLower t.token_address = k := fun hh => hka hh.symm
        simp [this]
    · intro k v hk
      by_cases hka : k = jsToLower t.token_address
      · subst hka
        rw [mapGet_set_self] at hk
        have hv : v = seedToken t := by
          injection hk with hk
          exact hk.symm
        subst hv
        have hempty := hnone _ hget
        constructor
        · simp [seedToken, countKey, tokensWithKey_append, hempty]
        refine ⟨?_, ?_, ?_⟩ <;>
          simp [seedToken, sumVolume, sumLiquidity, sumTxCount, tokensWithKey_append, hempty]
      · rw [mapGet_set_ne m _ k (seedToken t) hka] at hk
        have hprev := hsome k v hk
        have hne : ¬ jsToLower t.token_address = k := fun hh => hka hh.symm
        refine ⟨?_, ?_, ?_, ?_⟩ <;>
          simp [countKey, sumVolume, sumLiquidity, sumTxCount, tokensWithKey_append, hne,
            hprev.1, hprev.2.1, hprev.2.2.1, hprev.2.2.2]
  | some e =>
    have hstep : mergeStep m t
        = mapSet m (jsToLower t.token_address) (mergeDuplicateTokens e t) := by
      simp [mergeStep, hget]
    have hmem : (jsToLower t.token_address, e) ∈ m := mapGet_mem m _ e hget
    have headdr : jsToLower e.token_address = jsToLower t.token_address :=
      hkeys (jsToLower t.token_address, e) hmem
    have hprev := hsome _ e hget
    rw [hstep]
    refine ⟨?_, ?_, ?_, ?_⟩
    · rw [mapKeys_set_of_isSome m _ _ (by simp [hget])]
      exact hnd
    · intro p hp
      rcases mem_mapSet m _ _ p hp with h1 | h1
      · subst h1
        simpa [mergeDuplicateTokens] using headdr
      · exact hkeys p h1
    · intro k hk
      by_cases hka : k = jsToLower t.token_address
      · subst hka
        rw [mapGet_set_self] at hk
        exact absurd hk (by simp)
      · rw [mapGet_set_ne m _ k _ hka] at hk
        rw [tokensWithKey_append, hnone k hk]
        have : ¬ jsToLower t.token_address = k := fun hh => hka hh.symm
        simp [this]
    · intro k v hk
      by_cases hka : k = jsToLower t.token_address
      · subst hka
        rw [mapGet_set_self] at hk
        have hv : v = mergeDuplicateTokens e t := by
          injection hk with hk
          exact hk.symm
        subst hv
        refine ⟨?_, ?_, ?_, ?_⟩ <;>
          simp [mergeDuplicateTokens, countKey, sumVolume, sumLiquidity, sumTxCount,
            tokensWithKey_append, hprev.1, hprev.2.1, hprev.2.2.1, hprev.2.2.2]
      · rw [mapGet_set_ne m _ k _ hka] at hk
        have hk' := hsome k v hk
        have hne : ¬ jsToLower t.token_address = k := fun hh => hka hh.symm
        refine ⟨?_, ?_, ?_, ?_⟩ <;>
          simp [countKey, sumVolume, sumLiquidity, sumTxCount, tokensWithKey_append, hne,
            hk'.1, hk'.2.1, hk'.2.2.1, hk'.2.2.2]

theorem mergeInv_foldl (rest : List Token) (m : List (String × AggregatedToken))
    (l : List Token) (h : MergeInv m l) :
    MergeInv (rest.foldl mergeStep m) (l ++ rest) := by
  induction rest generalizing m l with
  | nil => simpa using h
  | cons t rest ih =>
    have h1 := mergeInv_step m l t h
    have h2 := ih (mergeStep m t) (l ++ [t]) h1
    simpa using h2

theorem mergeInv_mergeTokens (tokenArrays : List (List Token)) :
    MergeInv ((tokenArrays.flatten).foldl mergeStep []) tokenArrays.flatten := by
  have h0 : MergeInv [] [] := by
    refine ⟨by simp [mapKeys], by simp, ?_, ?_⟩
    · intro k
      simp [tokensWithKey]
    · intro k v hk
      simp [mapGet] at hk
  simpa using mergeInv_foldl tokenArrays.flatten [] [] h0

theorem values_filter_length (m : List (String × AggregatedToken)) (k : String)
    (hnd : (mapKeys m).Nodup) (hkeys : ∀ p ∈ m, jsToLower p.2.token_address = p.1) :
    ((m.map Prod.snd).filter (fun r => decide (jsToLower r.token_address = k))).length
      = if (mapGet m k).isSome then 1 else 0 := by
  induction m with
  | nil => simp [mapGet]
  | cons p rest ih =>
    obtain ⟨k0, v0⟩ := p
    have hk0 : jsToLower v0.token_address = k0 := hkeys (k0, v0) (List.mem_cons_self _ _)
    have hnd0 : k0 ∉ mapKeys rest ∧ (mapKeys rest).Nodup := by
      simpa [mapKeys, List.nodup_cons] using hnd
    have hkeys' : ∀ p ∈ rest, jsToLower p.2.token_address = p.1 :=
      fun p hp => hkeys p (List.mem_cons_of_mem _ hp)
    by_cases h : k0 = k
    · subst h
      have hrest : mapGet rest k0 = none := (mapGet_eq_none_iff rest k0).mpr hnd0.1
      have htail := ih hnd0.2 hkeys'
      rw [hrest] at htail
      simp only [Option.isSome_none, Bool.false_eq_true, if_false] at htail
      simp [mapGet, hk0, htail]
    · have htail := ih hnd0.2 hkeys'
      simp [mapGet, hk0, h, htail]

/-- C2: for every input and every lower-cased address occurring in the
flattened input, `mergeTokens` outputs exactly one record with that
address; its sources list length equals the number of inputs merged under
that address and its volume, liquidity and transaction count equal the
sums of the corresponding input values. -/
theorem C2_merge_unique_sums (tokenArrays : List (List Token)) (k : String)
    (h : 0 < countKey tokenArrays.flatten k) :
    ((mergeTokens tokenArrays).filter
        (fun r => decide (jsToLower r.token_address = k))).length = 1
    ∧ ∃ r ∈ mergeTokens tokenArrays,
        jsToLower r.token_address = k
        ∧ r.sources.length = countKey tokenArrays.flatten k
        ∧ r.volume_sol = sumVolume tokenArrays.flatten k
        ∧ r.liquidity_sol = sumLiquidity tokenArrays.flatten k
        ∧ r.transaction_count = sumTxCount tokenArrays.flatten k := by
  obtain ⟨hnd, hkeys, hnone, hsome⟩ := mergeInv_mergeTokens tokenArrays
  cases hget : mapGet ((tokenArrays.flatten).foldl mergeStep []) k with
  | none =>
    exfalso
    have := hnone k hget
    rw [countKey, this] at h
    simp at h
  | some v =>
    constructor
    · have hlen := values_filter_length _ k hnd hkeys
      rw [hget] at hlen
      simpa [mergeTokens] using hlen
    · refine ⟨v, ?_, ?_, hsome k v hget⟩
      · exact List.mem_map_of_mem Prod.snd (mapGet_mem _ k v hget)
      · exact hkeys (k, v) (mapGet_mem _ k v hget)

/-- C2 witness data: the two-source fixture of the unit test, differing in
address case. -/
def c2TokenA : Token :=
  { baseToken with
      token_address := "0xABC"
      volume_sol := 500
      liquidity_sol := 200
      transaction_count := 100 }

/-- C2 witness data: the second source's record for the same token. -/
def c2TokenB : Token :=
  { baseToken with
      token_address := "0xabc"
      volume_sol := 600
      liquidity_sol := 200
      transaction_count := 100
      source := "jupiter" }

/-- C2 witness: merging the two case-differing records yields exactly one
output record whose sources count is 2 and whose volume is the sum 1100. -/
theorem C2_merge_unique_sums_witness :
    0 < countKey ([[c2TokenA], [c2TokenB]] : List (List Token)).flatten "0xabc"
    ∧ (((mergeTokens [[c2TokenA], [c2TokenB]]).filter
          (fun r => decide (jsToLower r.token_address = "0xabc"))).length = 1
      ∧ ∃ r ∈ mergeTokens [[c2TokenA], [c2TokenB]],
          jsToLower r.token_address = "0xabc"
          ∧ r.sources.length = countKey ([[c2TokenA], [c2TokenB]] : List (List Token)).flatten "0xabc"
          ∧ r.volume_sol = sumVolume ([[c2TokenA], [c2TokenB]] : List (List Token)).flatten "0xabc"
          ∧ r.liquidity_sol = sumLiquidity ([[c2TokenA], [c2TokenB]] : List (List Token)).flatten "0xabc"
          ∧ r.transaction_count = sumTxCount ([[c2TokenA], [c2TokenB]] : List (List Token)).flatten "0xabc") :=
  ⟨by decide, C2_merge_unique_sums [[c2TokenA], [c2TokenB]] "0xabc" (by decide)⟩

theorem detectStep_eq (oldMap : List (String × AggregatedToken)) (pt vt : ℚ)
    (acc : List AggregatedToken × List AggregatedToken) (t : AggregatedToken) :
    detectStep oldMap pt vt acc t
      = (acc.1 ++ if priceHit oldMap pt t then [t] else [],
         acc.2 ++ if volumeHit oldMap vt t then [t] else []) := by
  cases hget : mapGet oldMap (jsToLower t.token_address) with
  | none => simp [detectStep, priceHit, volumeHit, hget]
  | some o =>
    by_cases hp : priceHit oldMap pt t <;> by_cases hv : volumeHit oldMap vt t <;>
      simp [detectStep, hget, hp, hv]

theorem detect_eq_filters (oldTokens newTokens : List AggregatedToken) (pt vt : ℚ) :
    detectSignificantChanges oldTokens newTokens pt vt
      = (newTokens.filter (priceHit (oldMapOf oldTokens) pt),
         newTokens.filter (volumeHit (oldMapOf oldTokens) vt)) := by
  suffices h : ∀ acc : List AggregatedToken × List AggregatedToken,
      newTokens.foldl (detectStep (oldMapOf oldTokens) pt vt) acc
        = (acc.1 ++ newTokens.filter (priceHit (oldMapOf oldTokens) pt),
           acc.2 ++ newTokens.filter (volumeHit (oldMapOf oldTokens) vt)) by
    simpa [detectSignificantChanges] using h ([], [])
  induction newTokens with
  | nil => intro acc; simp
  | cons t rest ih =>
    intro acc
    rw [List.foldl_cons, detectStep_eq, ih]
    by_cases hp : priceHit (oldMapOf oldTokens) pt t <;>
      by_cases hv : volumeHit (oldMapOf oldTokens) vt t <;>
        simp [List.filter_cons, hp, hv]

theorem oldMapOf_isSome (oldTokens : List AggregatedToken) (k : String) :
    (mapGet (oldMapOf oldTokens) k).isSome
      ↔ ∃ o ∈ oldTokens, jsToLower o.token_address = k := by
  suffices h : ∀ m : List (String × AggregatedToken),
      (mapGet (oldTokens.foldl (fun m t => mapSet m (jsToLower t.token_address) t) m) k).isSome
        ↔ (mapGet m k).isSome ∨ ∃ o ∈ oldTokens, jsToLower o.token_address = k by
    simpa [oldMapOf, mapGet] using h []
  induction oldTokens with
  | nil => intro m; simp
  | cons t rest ih =>
    intro m
    rw [List.foldl_cons, ih]
    by_cases hk : k = jsToLower t.token_address
    · subst hk
      simp [mapGet_set_self]
    · have hne : ¬ jsToLower t.token_address = k := fun hh => hk hh.symm
      rw [mapGet_set_ne m _ k t hk]
      simp only [List.mem_cons]
      constructor
      · rintro (h | ⟨o, ho, hok⟩)
        · exact Or.inl h
        · exact Or.inr ⟨o, Or.inr ho, hok⟩
      · rintro (h | ⟨o, ho | ho, hok⟩)
        · exact Or.inl h
        · subst ho; exact absurd hok hne
        · exact Or.inr ⟨o, ho, hok⟩

theorem priceHit_iff (oldMap : List (String × AggregatedToken)) (pt : ℚ)
    (t : AggregatedToken) :
    priceHit oldMap pt t = true
      ↔ ∃ o, mapGet oldMap (jsToLower t.token_address) = some o
          ∧ (if o.price_sol = 0 then t.price_sol ≠ 0
             else pt ≤ |(t.price_sol - o.price_sol) / o.price_sol * 100|) := by
  cases hget : mapGet oldMap (jsToLower t.token_address) with
  | none => simp [priceHit, hget]
  | some o =>
    by_cases hz : o.price_sol = 0
    · rcases lt_trichotomy t.price_sol 0 with ht | ht | ht
      · simp [priceHit, hget, hz, jsDivNum, jsMul100, jsAbs, jsGeNum, sub_zero,
          not_lt_of_gt ht, ht, ne_of_lt ht]
      · simp [priceHit, hget, hz, jsDivNum, jsMul100, jsAbs, jsGeNum, sub_zero, ht]
      · simp [priceHit, hget, hz, jsDivNum, jsMul100, jsAbs, jsGeNum, sub_zero,
          ht, ne_of_gt ht]
    · simp [priceHit, hget, hz, jsDivNum, jsMul100, jsAbs, jsGeNum]

theorem volumeHit_iff (oldMap : List (String × AggregatedToken)) (vt : ℚ)
    (t : AggregatedToken) :
    volumeHit oldMap vt t = true
      ↔ ∃ o, mapGet oldMap (jsToLower t.token_address) = some o
          ∧ (if 0 < o.volume_sol then
              vt ≤ (t.volume_sol - o.volume_sol) / o.volume_sol * 100
            else vt ≤ 0) := by
  cases hget : mapGet oldMap (jsToLower t.token_address) with
  | none => simp [volumeHit, hget]
  | some o =>
    by_cases hv : 0 < o.volume_sol <;> simp [volumeHit, hget, hv]

/-- C1 counterexample data: the old snapshot record with price 0. -/
def c1OldZero : AggregatedToken :=
  seedToken { baseToken with price_sol := 0 }

/-- C1 counterexample data: the new snapshot record with price 1. -/
def c1New : AggregatedToken :=
  seedToken baseToken

/-- C1: the claim states the price comparison is skipped (record not
listed) when the old price is 0.  But the source computes
`|((new - old) / old) * 100|`, which for old price 0 and new price 1 is
`Infinity` in JS, and `Infinity >= threshold` holds, so the record IS
pushed onto the price-change list. -/
theorem C1_price_zero_counterexample :
    c1OldZero.price_sol = 0
    ∧ (detectSignificantChanges [c1OldZero] [c1New] 5 50).1 = [c1New] := by
  constructor
  · rfl
  · rw [detect_eq_filters]
    have hhit : priceHit (oldMapOf [c1OldZero]) 5 c1New = true := by
      have hget : mapGet (oldMapOf [c1OldZero]) (jsToLower c1New.token_address)
          = some c1OldZero := by
        simp [oldMapOf, mapSet, mapGet, c1OldZero, c1New, seedToken]
      rw [priceHit_iff]
      refine ⟨c1OldZero, hget, ?_⟩
      norm_num [c1OldZero, c1New, seedToken, baseToken]
    simp [hhit]

/-- C1 (amended): a record of the new snapshot appears in the price-change
list iff the old snapshot has a record with the same lower-cased address
(for duplicates, the last one) and either the old price is non-zero and
`|new-old|/old*100 >= priceThresholdPct`, or the old price is 0 and the new
price is non-zero (the percentage is then infinite, so it meets any finite
threshold); it appears in the volume-spike list iff such an old counterpart
exists and either `old_volume > 0` and `(new-old)/old*100 >=
volumeThresholdPct`, or `old_volume <= 0` and `volumeThresholdPct <= 0`
(the change is taken as the literal 0); a record with no prior counterpart
never appears in either list. -/
theorem C1_detect_characterization (oldTokens newTokens : List AggregatedToken)
    (pt vt : ℚ) (t : AggregatedToken) :
    (t ∈ (detectSignificantChanges oldTokens newTokens pt vt).1
      ↔ t ∈ newTokens
        ∧ ∃ o, mapGet (oldMapOf oldTokens) (jsToLower t.token_address) = some o
            ∧ (if o.price_sol = 0 then t.price_sol ≠ 0
               else pt ≤ |(t.price_sol - o.price_sol) / o.price_sol * 100|))
    ∧ (t ∈ (detectSignificantChanges oldTokens newTokens pt vt).2
      ↔ t ∈ newTokens
        ∧ ∃ o, mapGet (oldMapOf oldTokens) (jsToLower t.token_address) = some o
            ∧ (if 0 < o.volume_sol then
                vt ≤ (t.volume_sol - o.volume_sol) / o.volume_sol * 100
              else vt ≤ 0))
    ∧ ((∀ o ∈ oldTokens, jsToLower o.token_address ≠ jsToLower t.token_address) →
        t ∉ (detectSignificantChanges oldTokens newTokens pt vt).1
        ∧ t ∉ (detectSignificantChanges oldTokens newTokens pt vt).2) := by
  have h1 : t ∈ (detectSignificantChanges oldTokens newTokens pt vt).1
      ↔ t ∈ newTokens
        ∧ ∃ o, mapGet (oldMapOf oldTokens) (jsToLower t.token_address) = some o
            ∧ (if o.price_sol = 0 then t.price_sol ≠ 0
               else pt ≤ |(t.price_sol - o.price_sol) / o.price_sol * 100|) := by
    rw [detect_eq_filters]
    simp only [List.mem_filter]
    rw [priceHit_iff]
  have h2 : t ∈ (detectSignificantChanges oldTokens newTokens pt vt).2
      ↔ t ∈ newTokens
        ∧ ∃ o, mapGet (oldMapOf oldTokens) (jsToLower t.token_address) = some o
            ∧ (if 0 < o.volume_sol then
                vt ≤ (t.volume_sol - o.volume_sol) / o.volume_sol * 100
              else vt ≤ 0) := by
    rw [detect_eq_filters]
    simp only [List.mem_filter]
    rw [volumeHit_iff]
  refine ⟨h1, h2, ?_⟩
  intro hall
  have hnone : mapGet (oldMapOf oldTokens) (jsToLower t.token_address) = none := by
    rw [← Option.not_isSome_iff_eq_none, oldMapOf_isSome]
    rintro ⟨o, ho, hok⟩
    exact hall o ho hok
  constructor
  · rw [h1]
    rintro ⟨-, o, hget, -⟩
    rw [hnone] at hget
    exact Option.noConfusion hget
  · rw [h2]
    rintro ⟨-, o, hget, -⟩
    rw [hnone] at hget
    exact Option.noConfusion hget

/-- C1 witness: the §8 example — old price 1.0, new price 1.1 (10 percent),
threshold 5 — appears in the price-change list, via the characterization
theorem. -/
theorem C1_detect_characterization_witness :
    seedToken { baseToken with price_sol := 11/10 }
      ∈ (detectSignificantChanges [baseAgg]
          [seedToken { baseToken with price_sol := 11/10 }] 5 50).1 := by
  have hget : mapGet (oldMapOf [baseAgg])
      (jsToLower (seedToken { baseToken with price_sol := 11/10 }).token_address)
      = some baseAgg := by
    simp [oldMapOf, mapSet, mapGet, baseAgg, seedToken]
  refine (C1_detect_characterization [baseAgg]
    [seedToken { baseToken with price_sol := 11/10 }] 5 50
    (seedToken { baseToken with price_sol := 11/10 })).1.mpr
    ⟨List.mem_singleton_self _, baseAgg, hget, ?_⟩
  norm_num [baseAgg, seedToken, baseToken]

theorem disconnectStep_socketFilterRooms (sid : String) (s : WSState) (room : String) :
    (disconnectStep sid s room).socketFilterRooms = s.socketFilterRooms := by
  simp only [disconnectStep]
  split <;> rfl

theorem foldl_disconnectStep_socketFilterRooms (sid : String) (rooms : List String)
    (s : WSState) :
    (rooms.foldl (disconnectStep sid) s).socketFilterRooms = s.socketFilterRooms := by
  induction rooms generalizing s with
  | nil => rfl
  | cons room rest ih =>
    rw [List.foldl_cons, ih, disconnectStep_socketFilterRooms]

theorem disconnectStep_filterRooms_nodup (sid : String) (s : WSState) (room : String)
    (hnd : (mapKeys s.filterRooms).Nodup) :
    (mapKeys (disconnectStep sid s room).filterRooms).Nodup := by
  simp only [disconnectStep]
  split
  · exact mapKeys_delete_nodup _ _ hnd
  · exact hnd

theorem adapterLeave_get_ne (rooms : List (String × List String)) (room sid r : String)
    (hr : r ≠ room) : mapGet (adapterLeave rooms room sid) r = mapGet rooms r := by
  unfold adapterLeave
  cases hget : mapGet rooms room with
  | none => rfl
  | some members =>
    by_cases hz : members.erase sid = []
    · simp [hz, mapGet_delete_ne rooms room r hr]
    · simp [hz, mapGet_set_ne rooms room r _ hr]

theorem disconnectStep_establishes (sid : String) (s : WSState) (room : String)
    (hnd : (mapKeys s.filterRooms).Nodup)
    (hz : roomSize (disconnectStep sid s room).adapterRooms room = 0) :
    mapGet (disconnectStep sid s room).filterRooms room = none := by
  unfold disconnectStep at hz ⊢
  by_cases h : roomSize (adapterLeave s.adapterRooms room sid) room = 0
  · simp only [h, if_true]
    exact mapGet_delete_self s.filterRooms room hnd
  · simp only [h, if_false] at hz

theorem disconnectStep_preserves (sid : String) (s : WSState) (room r : String)
    (hr : r ≠ room)
    (h : roomSize s.adapterRooms r = 0 → mapGet s.filterRooms r = none)
    (hz : roomSize (disconnectStep sid s room).adapterRooms r = 0) :
    mapGet (disconnectStep sid s room).filterRooms r = none := by
  unfold disconnectStep at hz ⊢
  have hadapter : roomSize (adapterLeave s.adapterRooms room sid) r
      = roomSize s.adapterRooms r := by
    unfold roomSize
    rw [adapterLeave_get_ne s.adapterRooms room sid r hr]
  by_cases hcase : roomSize (adapterLeave s.adapterRooms room sid) room = 0
  · simp only [hcase, if_true] at hz ⊢
    rw [mapGet_delete_ne s.filterRooms room r hr]
    exact h (by rw [← hadapter]; exact hz)
  · simp only [hcase, if_false] at hz ⊢
    exact h (by rw [← hadapter]; exact hz)

theorem foldl_disconnectStep_discards (sid : String) (rooms : List String) (s : WSState)
    (r : String) (hnd : (mapKeys s.filterRooms).Nodup)
    (hstart : (roomSize s.adapterRooms r = 0 → mapGet s.filterRooms r = none) ∨ r ∈ rooms)
    (hz : roomSize (rooms.foldl (disconnectStep sid) s).adapterRooms r = 0) :
    mapGet (rooms.foldl (disconnectStep sid) s).filterRooms r = none := by
  induction rooms generalizing s with
  | nil =>
    rcases hstart with h | h
    · exact h hz
    · exact absurd h (List.not_mem_nil r)
  | cons room rest ih =>
    rw [List.foldl_cons] at hz ⊢
    have hnd' := disconnectStep_filterRooms_nodup sid s room hnd
    rcases hstart with h | h
    · by_cases hrr : r = room
      · subst hrr
        refine ih (disconnectStep sid s r) hnd' (Or.inl ?_) hz
        exact disconnectStep_establishes sid s r hnd
      · refine ih (disconnectStep sid s room) hnd' (Or.inl ?_) hz
        exact disconnectStep_preserves sid s room r hrr h
    · rcases List.mem_cons.mp h with hrr | hmem
      · subst hrr
        refine ih (disconnectStep sid s r) hnd' (Or.inl ?_) hz
        exact disconnectStep_establishes sid s r hnd
      · exact ih (disconnectStep sid s room) hnd' (Or.inr hmem) hz

theorem foldl_disconnectStep_filterRooms_nodup (sid : String) (rooms : List String)
    (s : WSState) (hnd : (mapKeys s.filterRooms).Nodup) :
    (mapKeys (rooms.foldl (disconnectStep sid) s).filterRooms).Nodup := by
  induction rooms generalizing s with
  | nil => exact hnd
  | cons room rest ih =>
    rw [List.foldl_cons]
    exact ih _ (disconnectStep_filterRooms_nodup sid s room hnd)

/-- C9: assuming the JS `Map` invariant (no duplicate keys) on the registry
maps, disconnecting a connection removes all of its filter-group
memberships; any of its former groups that is left without members has its
stored criterion discarded; and a later join whose canonical room name is
unregistered stores the freshly normalized criterion. -/
theorem C9_disconnect_cleanup (s : WSState) (sid sid2 : String) (criteria : RawCriteria)
    (hnd1 : (mapKeys s.filterRooms).Nodup)
    (hnd2 : (mapKeys s.socketFilterRooms).Nodup) :
    mapGet (disconnect s sid).socketFilterRooms sid = none
    ∧ (∀ room ∈ (mapGet s.socketFilterRooms sid).getD [],
        roomSize (disconnect s sid).adapterRooms room = 0 →
          mapGet (disconnect s sid).filterRooms room = none)
    ∧ (mapGet (disconnect s sid).filterRooms (filterRoomId (normalizeFilters criteria))
          = none →
        mapGet (subscribeFilters (disconnect s sid) sid2 criteria).filterRooms
            (filterRoomId (normalizeFilters criteria))
          = some (normalizeFilters criteria)) := by
  refine ⟨?_, ?_, ?_⟩
  · unfold disconnect
    cases hget : mapGet s.socketFilterRooms sid with
    | none => exact hget
    | some rooms =>
      simp only []
      rw [foldl_disconnectStep_socketFilterRooms]
      exact mapGet_delete_self s.socketFilterRooms sid hnd2
  · intro room hroom hz
    unfold disconnect at hz ⊢
    cases hget : mapGet s.socketFilterRooms sid with
    | none =>
      rw [hget] at hroom
      exact absurd hroom (List.not_mem_nil room)
    | some rooms =>
      rw [hget] at hroom hz
      simp only [Option.getD_some] at hroom
      exact foldl_disconnectStep_discards sid rooms s room hnd1 (Or.inr hroom) hz
  · intro hnone
    unfold subscribeFilters
    simp only [hnone, Option.isSome_none, Bool.false_eq_true, if_false]
    exact mapGet_set_self _ _ _

/-- C9 witness data: a criteria object left entirely to defaults. -/
def c9Raw : RawCriteria :=
  { sortBy := none, period := none, minVolume := none, minLiquidity := none, limit := none }

/-- C9 witness data: the empty registry. -/
def c9Empty : WSState :=
  { filterRooms := [], socketFilterRooms := [], adapterRooms := [] }

/-- C9 witness data: the registry after the only client joins one group. -/
def c9S1 : WSState :=
  subscribeFilters c9Empty "s1" c9Raw

theorem c9S1_eq :
    c9S1 = { filterRooms := [(filterRoomId (normalizeFilters c9Raw), normalizeFilters c9Raw)]
             socketFilterRooms := [("s1", [filterRoomId (normalizeFilters c9Raw)])]
             adapterRooms := [(filterRoomId (normalizeFilters c9Raw), ["s1"])] } := by
  simp [c9S1, c9Empty, subscribeFilters, adapterJoin, mapGet, mapSet]

theorem c9_disconnect_eq : disconnect c9S1 "s1" = c9Empty := by
  rw [c9S1_eq]
  simp [disconnect, disconnectStep, adapterLeave, roomSize, c9Empty,
    mapGet, mapSet, mapDelete, List.erase]

/-- C9 witness: disconnecting the only member of a filter group leaves the
registry empty — membership record gone, criterion discarded — and a later
rejoin with the same canonical filter registers a fresh criterion. -/
theorem C9_disconnect_cleanup_witness :
    (mapKeys c9S1.filterRooms).Nodup
    ∧ (mapKeys c9S1.socketFilterRooms).Nodup
    ∧ mapGet (disconnect c9S1 "s1").socketFilterRooms "s1" = none
    ∧ mapGet (disconnect c9S1 "s1").filterRooms (filterRoomId (normalizeFilters c9Raw)) = none
    ∧ mapGet (subscribeFilters (disconnect c9S1 "s1") "s2" c9Raw).filterRooms
        (filterRoomId (normalizeFilters c9Raw)) = some (normalizeFilters c9Raw) := by
  have hnd1 : (mapKeys c9S1.filterRooms).Nodup := by
    rw [c9S1_eq]
    simp [mapKeys]
  have hnd2 : (mapKeys c9S1.socketFilterRooms).Nodup := by
    rw [c9S1_eq]
    simp [mapKeys]
  have hthm := C9_disconnect_cleanup c9S1 "s1" "s2" c9Raw hnd1 hnd2
  have hmem : filterRoomId (normalizeFilters c9Raw)
      ∈ (mapGet c9S1.socketFilterRooms "s1").getD [] := by
    rw [c9S1_eq]
    simp [mapGet]
  have hsize : roomSize (disconnect c9S1 "s1").adapterRooms
      (filterRoomId (normalizeFilters c9Raw)) = 0 := by
    rw [c9_disconnect_eq]
    rfl
  have hdiscard := hthm.2.1 (filterRoomId (normalizeFilters c9Raw)) hmem hsize
  exact ⟨hnd1, hnd2, hthm.1, hdiscard, hthm.2.2 hdiscard⟩

end MemeAgg
